import Mathlib

/-!
Verification of the marker-management core of IntroEditorForPlex against its
natural-language specification.

The definitions below are a shallow embedding of the JavaScript source:

* Marker rows and the CRUD engine (CoreCommands.addMarker / editMarker /
  deleteMarker in src/unnamed/part_002, and the equivalent dispatcher-level
  functions in src/unnamed/part_001).
* The bulk-shift classification of the client table rows
  (BulkShiftRow.update in src/unnamed/part_003).
* The packed marker-count bucket arithmetic of src/Shared/MarkerBreakdown.js
  (32-bit JavaScript bitwise semantics made explicit).
* The bucket-map delta operation of MarkerBreakdown.delta / totalItems.

Machine integers are modelled as Int with explicit reduction modulo 2 ^ 32
where the JavaScript source uses bitwise operators (which coerce to 32-bit
signed integers).  Server-side code that is absent from the available source
(the shift engine commit path and the typed edit path) is modelled from the
specification and marked as such in its doc comment.
-/

deriving instance DecidableEq for Except

namespace MarkerEditor

/-- Marker row as stored for one media item: the taggings row id, the parent
(episode or movie) metadata id, the interval in milliseconds, the 0-based
index among the siblings of the parent, the marker type string and the
final flag. -/
structure Marker where
  id : Int
  parentId : Int
  startMs : Int
  endMs : Int
  index : Int
  markerType : String
  isFinal : Bool
deriving DecidableEq

/-- Error kinds surfaced by the engine (all ServerError responses of the
source collapse to the kind that matters for the claims). -/
inductive ServerErr where
  | badRequest
  | overlap
  | notFound
deriving DecidableEq

/-- Bucket map of MarkerBreakdown: a JavaScript object whose keys are bucket
keys and whose values are item counts, modelled as an association list with
unique keys. -/
def BucketMap : Type := List (Int × Int)

/-- Server state visible to the claims: the markers of one parent, the
in-memory marker-count cache buckets, and the action log (markerId with the
recorded start and end). -/
structure ServerState where
  markers : List Marker
  cache : List (Int × Int)
  actionLog : List (Int × Int × Int)
deriving DecidableEq

/-- Translation of CoreCommands checkMarkerBounds (src/unnamed/part_002,
lines 140-148): rejects startMs greater than or equal to endMs, then a
negative startMs, with status 400 (BadRequest).  No other condition is
checked; in particular the parent duration is never consulted. -/
def checkMarkerBounds (startMs endMs : Int) : Option ServerErr :=
  if startMs ≥ endMs then some ServerErr.badRequest
  else if startMs < 0 then some ServerErr.badRequest
  else none

/-- Translation of the in-place assignment in editMarker
(allMarkers at position oldIndex gets the requested start and end). -/
def replaceAt (markers : List Marker) (i : Nat) (startMs endMs : Int) : List Marker :=
  match markers.get? i with
  | some mk => markers.set i { mk with startMs := startMs, endMs := endMs }
  | none => markers

/-- Stable insertion of a marker into a list sorted by startMs, the building
block of the sort-by-start step of the source. -/
def insertSorted (m : Marker) : List Marker → List Marker
  | [] => [m]
  | x :: xs => if m.startMs ≤ x.startMs then m :: x :: xs else x :: insertSorted m xs

/-- Translation of allMarkers.sort comparing by start (a stable sort, as in
the JavaScript runtime). -/
def sortByStart (l : List Marker) : List Marker :=
  l.foldr insertSorted []

/-- Translation of the overlap test of the editMarker loop
(src/unnamed/part_002, lines 60-66): a marker conflicts when its end is at
or after the requested start, its start is at or before the requested end,
and it is not the marker being edited.  Note the closed comparisons: merely
touching intervals satisfy this test. -/
def hasOverlap (sorted : List Marker) (markerId startMs endMs : Int) : Bool :=
  sorted.any fun mk => decide (mk.endMs ≥ startMs ∧ mk.startMs ≤ endMs ∧ mk.id ≠ markerId)

/-- Helper assigning consecutive indices starting at i, the effect of the
marker.newIndex assignments followed by updateMarkerIndex writes. -/
def reindexFrom (i : Int) : List Marker → List Marker
  | [] => []
  | m :: rest => { m with index := i } :: reindexFrom (i + 1) rest

/-- Reindex a sorted sibling list to indices 0, 1, 2, ... as the source does
after sorting by start. -/
def reindex (l : List Marker) : List Marker :=
  reindexFrom 0 l

/-- Translation of CoreCommands.editMarker (src/unnamed/part_002, lines
41-94): bounds check, lookup of the marker, in-memory replacement of its
interval at its old index, sort by start, overlap scan (throwing Overlap
before any database write), then the commit writing the new interval and
the recomputed indices. -/
def editMarkerOp (markers : List Marker) (markerId startMs endMs : Int) :
    Except ServerErr (List Marker) :=
  match checkMarkerBounds startMs endMs with
  | some e => Except.error e
  | none =>
    match markers.find? (fun mk => mk.id == markerId) with
    | none => Except.error ServerErr.notFound
    | some currentMarker =>
      let replaced := replaceAt markers currentMarker.index.toNat startMs endMs
      let sorted := sortByStart replaced
      if hasOverlap sorted markerId startMs endMs then Except.error ServerErr.overlap
      else Except.ok (reindex sorted)

/-- Edit with the full state threaded through: on any thrown error the
database, the cache and the action log are untouched (every write of the
source happens after the throw points); on success the markers are updated,
the cache is untouched (editMarker never touches the marker cache in the
source) and one edit entry is recorded. -/
def applyEditMarker (st : ServerState) (markerId startMs endMs : Int) :
    ServerState × Option ServerErr :=
  match editMarkerOp st.markers markerId startMs endMs with
  | Except.error e => (st, some e)
  | Except.ok newMarkers =>
    ({ st with
        markers := newMarkers
        actionLog := st.actionLog ++ [(markerId, startMs, endMs)] }, none)

/-- Ensure a bucket key exists, the effect of the nullish assignment in
MarkerBreakdown.delta (counts of the key default to 0). -/
def bdEnsure (counts : List (Int × Int)) (k : Int) : List (Int × Int) :=
  if counts.any (fun p => p.1 == k) then counts else counts ++ [(k, 0)]

/-- Add d to the value stored at key k. -/
def bdAdd (counts : List (Int × Int)) (k d : Int) : List (Int × Int) :=
  counts.map fun p => if p.1 == k then (p.1, p.2 + d) else p

/-- Translation of MarkerBreakdown.delta (src/Shared/MarkerBreakdown.js,
lines 184-191): ensure the target bucket exists, decrement the old bucket,
increment the target bucket. -/
def bdDelta (counts : List (Int × Int)) (oldBucket delta : Int) : List (Int × Int) :=
  bdAdd (bdAdd (bdEnsure counts (oldBucket + delta)) oldBucket (-1)) (oldBucket + delta) 1

/-- Translation of MarkerBreakdown.totalItems (src/Shared/MarkerBreakdown.js,
lines 151-154): the sum of all bucket values. -/
def totalItems (counts : List (Int × Int)) : Int :=
  (counts.map Prod.snd).sum

/-- Translation of CoreCommands.addMarker (src/unnamed/part_002, lines
22-33).  The bounds check is from the source; the insertion itself is done
by QueryManager.addMarker, which is not under the available source, so the
insert is modelled from the spec: reject with Overlap when the proposed
half-open interval intersects an existing marker (spec step 4, invariant
I1), otherwise insert and assign ranks by start order (spec step 5). -/
def addMarkerOp (markers : List Marker) (parentId newId startMs endMs : Int) :
    Except ServerErr (List Marker) :=
  match checkMarkerBounds startMs endMs with
  | some e => Except.error e
  | none =>
    if markers.any (fun s => decide (s.startMs < endMs ∧ startMs < s.endMs)) then
      Except.error ServerErr.overlap
    else
      Except.ok (reindex (sortByStart
        ({ id := newId
           parentId := parentId
           startMs := startMs
           endMs := endMs
           index := 0
           markerType := "intro"
           isFinal := false } :: markers)))

/-- Add with the full state threaded through: on failure nothing is written
(the source throws before any database call); on success the markers are
updated, the cache bucket of the parent moves by one (LegacyMarkerBreakdown
Update with the old marker count and delta 1) and one add entry is
recorded. -/
def applyAddMarker (st : ServerState) (parentId newId startMs endMs : Int) :
    ServerState × Option ServerErr :=
  match addMarkerOp st.markers parentId newId startMs endMs with
  | Except.error e => (st, some e)
  | Except.ok newMarkers =>
    ({ markers := newMarkers
       cache := bdDelta st.cache (st.markers.length : Int) 1
       actionLog := st.actionLog ++ [(newId, startMs, endMs)] }, none)

/-- Translation of the deleteIndex computation of deleteMarker
(src/unnamed/part_002, lines 106-111): fold over all sibling markers,
remembering the index of the one whose id matches. -/
def deleteFindIndex (allMarkers : List Marker) (markerId : Int) : Int :=
  allMarkers.foldl (fun acc mk => if mk.id == markerId then mk.index else acc) 0

/-- Translation of CoreCommands.deleteMarker (src/unnamed/part_002, lines
99-132): look the marker up (404-style failure when absent), compute its
index, delete the row, and when the deleted index was not the last one
decrement the index of every sibling whose index was greater.  Returns the
prior state of the marker together with the new sibling list. -/
def deleteMarkerOp (allMarkers : List Marker) (markerId : Int) :
    Option (Marker × List Marker) :=
  match allMarkers.find? (fun mk => mk.id == markerId) with
  | none => none
  | some markerToDelete =>
    let deleteIndex := deleteFindIndex allMarkers markerId
    let removed := allMarkers.filter fun mk => decide (mk.id ≠ markerId)
    let newList :=
      if deleteIndex < (allMarkers.length : Int) - 1 then
        removed.map fun mk =>
          if deleteIndex < mk.index then { mk with index := mk.index - 1 } else mk
      else removed
    some (markerToDelete, newList)

/-- Shift result record: the applied, conflict and overflow flags plus the
markers reported back to the client. -/
structure ShiftResult where
  applied : Bool
  conflict : Bool
  overflow : Bool
  allMarkers : List Marker
deriving DecidableEq

/-- Markers of the subtree that survive the ignore list (spec step 2 of the
shift algorithm). -/
def shiftRetained (markers : List Marker) (ignored : List Int) : List Marker :=
  markers.filter fun m => decide (m.id ∉ ignored)

/-- Modelled from the spec: the server-side Error classification of a
candidate marker of a shift (the shift engine is not under the available
source; spec section 4.E: Error when the shifted end is at or below 0, the
shifted start is at or beyond the duration, or the shifted interval is
empty or inverted).  ShiftTest.shiftSingleEpisodeTooMuchTest exercises the
first two cases. -/
def shiftIsError (duration dStart dEnd : Int) (m : Marker) : Bool :=
  decide (m.endMs + dEnd ≤ 0 ∨ m.startMs + dStart ≥ duration ∨
    m.endMs + dEnd ≤ m.startMs + dStart)

/-- Modelled from the spec: the commit-time clamp of a shifted marker to the
episode (spec section 4.E, Cutoff markers are clamped to
max(0, shifted start) and min(duration, shifted end)). -/
def shiftClamp (duration dStart dEnd : Int) (m : Marker) : Marker :=
  { m with startMs := max 0 (m.startMs + dStart), endMs := min duration (m.endMs + dEnd) }

/-- Modelled from the spec: a linked conflict exists when some parent owns
more than one retained marker (spec step 3 of the shift algorithm). -/
def hasLinkedConflict (retained : List Marker) : Bool :=
  retained.any fun m => retained.any fun m2 =>
    decide (m2.parentId = m.parentId ∧ m2.id ≠ m.id)

/-- Modelled from the spec: the shift engine (spec section 4.E; the
server-side implementation is not under the available source, only its
tests are).  Remove ignored markers, refuse on a linked conflict without
force, refuse on any Error marker without force, otherwise commit every
retained non-Error marker with the clamp; Error markers are never
written. -/
def shiftMarkers (markers : List Marker) (duration : Int → Int) (dStart dEnd : Int)
    (force : Bool) (ignored : List Int) : ShiftResult × List Marker :=
  let retained := shiftRetained markers ignored
  let anyError := retained.any fun m => shiftIsError (duration m.parentId) dStart dEnd m
  if hasLinkedConflict retained && !force then
    ({ applied := false, conflict := true, overflow := anyError, allMarkers := retained },
      markers)
  else if anyError && !force then
    ({ applied := false, conflict := false, overflow := true, allMarkers := retained },
      markers)
  else
    ({ applied := true, conflict := false, overflow := false
       allMarkers :=
        (retained.filter fun m => !(shiftIsError (duration m.parentId) dStart dEnd m)).map
          fun m => shiftClamp (duration m.parentId) dStart dEnd m },
      markers.map fun m =>
        if decide (m.id ∉ ignored) && !(shiftIsError (duration m.parentId) dStart dEnd m) then
          shiftClamp (duration m.parentId) dStart dEnd m
        else m)

/-- Translation of the client-side Error classification of
BulkShiftRow.update (src/unnamed/part_003, line 955): strict comparisons
(end below 0, start above the duration) plus the empty-interval test. -/
def bulkShiftRowIsError (markerStart markerEnd startShift endShift maxDuration : Int) : Bool :=
  decide (markerEnd + endShift < 0 ∨ markerStart + startShift > maxDuration ∨
    markerEnd + endShift ≤ markerStart + startShift)

/-- Translation of the displayed new start of BulkShiftRow.update
(src/unnamed/part_003, line 947). -/
def bulkShiftNewStart (markerStart startShift maxDuration : Int) : Int :=
  max 0 (min (markerStart + startShift) maxDuration)

/-- Translation of the displayed new end of BulkShiftRow.update
(src/unnamed/part_003, line 948). -/
def bulkShiftNewEnd (markerEnd endShift maxDuration : Int) : Int :=
  max 0 (min (markerEnd + endShift) maxDuration)

/-- Conversion of an integer to the 32-bit signed value JavaScript bitwise
operators work on (ToInt32 of the ECMAScript specification). -/
def toInt32 (n : Int) : Int :=
  if n % 4294967296 < 2147483648 then n % 4294967296 else n % 4294967296 - 4294967296

/-- Translation of MarkerBreakdown.deltaFromType
(src/Shared/MarkerBreakdown.js, lines 26-37): intro deltas are returned
unchanged, credits deltas are shifted left by 16 with 32-bit signed
wraparound, and every other marker type, including the supported type
commercial, silently falls back to the intro encoding. -/
def deltaFromType (delta : Int) (markerType : String) : Int :=
  if markerType = "intro" then delta
  else if markerType = "credits" then toInt32 (toInt32 delta * 65536)
  else delta

/-- Translation of the private intro-count extraction of MarkerBreakdown
(line 128): bitwise AND of the key with the mask 0xFFFF. -/
def ic (v : Int) : Int :=
  toInt32 v % 65536

/-- Translation of the private credits-count extraction of MarkerBreakdown
(line 130): 32-bit signed arithmetic shift right by 16 of the key. -/
def cc (v : Int) : Int :=
  toInt32 v / 65536

/-- Translation of MarkerBreakdown.keyFromMarkerCount
(src/Shared/MarkerBreakdown.js, lines 50-52). -/
def keyFromMarkerCount (intros credits : Int) : Int :=
  deltaFromType intros "intro" + deltaFromType credits "credits"

/-- Translation of MarkerBreakdown.markerCountFromKey
(src/Shared/MarkerBreakdown.js, lines 42-44). -/
def markerCountFromKey (key : Int) : Int :=
  cc key + ic key

/-- Modelled from the spec: the final-flag resolution of the typed Edit path
(the CoreCommands edit handling of marker type and final flag is not under
the available source; spec section 4.D Edit step 2: when final is requested
and the type is not credits, warn and clear the flag, the edit itself
proceeds). -/
def editResolveFinal (markerType : String) (finalRequested : Bool) : Bool :=
  if markerType = "credits" then finalRequested else false

/-- Modelled from the spec: the fields stored by a committed typed Edit
(requested start, end and type; the final flag after resolution). -/
def editApply (m : Marker) (startMs endMs : Int) (markerType : String)
    (finalRequested : Bool) : Marker :=
  { m with
    startMs := startMs
    endMs := endMs
    markerType := markerType
    isFinal := editResolveFinal markerType finalRequested }

/-- Fixture: the default intro marker of Show1 Season1 Episode2 of the test
database (id 1, interval 15000 to 45000, index 0). -/
def epMarker1 : Marker :=
  { id := 1
    parentId := 4
    startMs := 15000
    endMs := 45000
    index := 0
    markerType := "intro"
    isFinal := false }

/-- Fixture: a second marker on the same parent with interval 60000 to
90000 at index 1 (the scenario of the Overlap no-op example). -/
def epMarker2 : Marker :=
  { id := 2
    parentId := 4
    startMs := 60000
    endMs := 90000
    index := 1
    markerType := "intro"
    isFinal := false }

/-- Fixture: server state holding the two markers above with an empty cache
and an empty action log. -/
def twoMarkerState : ServerState :=
  { markers := [epMarker1, epMarker2], cache := [], actionLog := [] }

/-- Fixture: the duration function of the test database, where every episode
and movie lasts 600000 milliseconds. -/
def constDuration : Int → Int := fun _ => 600000

/-- Fixture: first marker of a three-marker parent used by the delete
claim. -/
def delMarkerA : Marker :=
  { id := 11
    parentId := 14
    startMs := 10000
    endMs := 20000
    index := 0
    markerType := "intro"
    isFinal := false }

/-- Fixture: second marker of a three-marker parent used by the delete
claim. -/
def delMarkerB : Marker :=
  { id := 12
    parentId := 14
    startMs := 30000
    endMs := 40000
    index := 1
    markerType := "credits"
    isFinal := false }

/-- Fixture: third marker of a three-marker parent used by the delete
claim. -/
def delMarkerC : Marker :=
  { id := 13
    parentId := 14
    startMs := 50000
    endMs := 60000
    index := 2
    markerType := "credits"
    isFinal := true }

/-!
Helper lemmas shared by the claim theorems.
-/

theorem deltaFromType_intro_eq (d : Int) : deltaFromType d "intro" = d := rfl

theorem deltaFromType_credits_eq (d : Int) :
    deltaFromType d "credits" = toInt32 (toInt32 d * 65536) := rfl

theorem deltaFromType_commercial_eq (d : Int) : deltaFromType d "commercial" = d := rfl

theorem toInt32_eq_self (n : Int) (h1 : 0 ≤ n) (h2 : n < 2147483648) : toInt32 n = n := by
  unfold toInt32
  omega

theorem bdAdd_map_fst (c : List (Int × Int)) (k d : Int) :
    (bdAdd c k d).map Prod.fst = c.map Prod.fst := by
  induction c with
  | nil => rfl
  | cons p rest ih =>
    simp only [bdAdd, List.map_cons] at ih ⊢
    by_cases h : p.1 = k
    · simpa [h] using ih
    · simpa [h] using ih

theorem totalItems_bdAdd (c : List (Int × Int)) (k d : Int) :
    totalItems (bdAdd c k d) = totalItems c + d * (((c.map Prod.fst).count k : Nat) : Int) := by
  induction c with
  | nil => simp [bdAdd, totalItems]
  | cons p rest ih =>
    simp only [bdAdd, totalItems, List.map_cons, List.sum_cons, List.count_cons] at ih ⊢
    by_cases h : p.1 = k
    · simp only [h, if_pos rfl, beq_self_eq_true, if_true]
      push_cast
      rw [mul_add, mul_one]
      linarith [ih]
    · have hbeq : (p.1 == k) = false := by simpa using h
      simp only [hbeq, Bool.false_eq_true, if_false]
      push_cast
      linarith [ih]

theorem totalItems_bdEnsure (c : List (Int × Int)) (k : Int) :
    totalItems (bdEnsure c k) = totalItems c := by
  unfold bdEnsure
  by_cases h : c.any (fun p => p.1 == k) = true
  · simp [h]
  · simp only [h, if_false, Bool.false_eq_true]
    simp [totalItems]

theorem count_bdEnsure_self (c : List (Int × Int)) (k : Int)
    (hnodup : (c.map Prod.fst).Nodup) :
    ((bdEnsure c k).map Prod.fst).count k = 1 := by
  unfold bdEnsure
  by_cases h : c.any (fun p => p.1 == k) = true
  · have hk : k ∈ c.map Prod.fst := by
      rcases List.any_eq_true.mp h with ⟨p, hp, hpk⟩
      exact List.mem_map.mpr ⟨p, hp, by simpa using hpk⟩
    simp only [h, if_true]
    exact List.count_eq_one_of_mem hnodup hk
  · have hk : k ∉ c.map Prod.fst := by
      intro hmem
      rcases List.mem_map.mp hmem with ⟨p, hp, hpk⟩
      exact h (List.any_eq_true.mpr ⟨p, hp, by simpa using hpk⟩)
    simp only [h, if_false, Bool.false_eq_true]
    rw [List.map_append, List.count_append]
    rw [List.count_eq_zero_of_not_mem hk]
    simp

theorem count_bdEnsure_other (c : List (Int × Int)) (k a : Int)
    (hnodup : (c.map Prod.fst).Nodup) (hmem : a ∈ c.map Prod.fst) :
    ((bdEnsure c k).map Prod.fst).count a = 1 := by
  unfold bdEnsure
  by_cases h : c.any (fun p => p.1 == k) = true
  · simp only [h, if_true]
    exact List.count_eq_one_of_mem hnodup hmem
  · have hk : k ∉ c.map Prod.fst := by
      intro hmem2
      rcases List.mem_map.mp hmem2 with ⟨p, hp, hpk⟩
      exact h (List.any_eq_true.mpr ⟨p, hp, by simpa using hpk⟩)
    simp only [h, if_false, Bool.false_eq_true]
    rw [List.map_append, List.count_append]
    rw [List.count_eq_one_of_mem hnodup hmem]
    have : a ≠ k := fun hak => hk (hak ▸ hmem)
    simp [List.count_singleton, this]

/-!
Claim theorems.
-/

/-- C2: the claim states that a shift candidate is classified Error exactly
when the shifted end is at or below 0, the shifted start is at or beyond
the duration, or the shifted interval is empty.  The client-side
classification of BulkShiftRow.update uses strict comparisons instead: on
the input of ShiftTest.shiftSingleEpisodeTooMuchTest (marker 15000 to
45000, both deltas -45000, duration 600000) the shifted end is exactly 0,
the claim and the test demand Error, yet the code reports no error and
displays the interval clamped to an empty 0 to 0. -/
theorem c2_bulkshift_error_boundary_bug :
    bulkShiftRowIsError 15000 45000 (-45000) (-45000) 600000 = false ∧
    (45000 : Int) + (-45000) ≤ 0 ∧
    bulkShiftNewStart 15000 (-45000) 600000 = 0 ∧
    bulkShiftNewEnd 45000 (-45000) 600000 = 0 ∧
    shiftIsError 600000 (-45000) (-45000) epMarker1 = true := by
  decide

/-- C8 counterexample: for intros = 0 and credits = 32768 (both below
2 ^ 16) the packed key is not credits times 2 ^ 16 plus intros: the 32-bit
signed shift wraps to -2147483648, the credits extraction returns -32768
and markerCountFromKey returns -32768 instead of 32768. -/
theorem c8_packed_key_counterexample :
    (0 : Int) ≤ 32768 ∧ (32768 : Int) < 65536 ∧
    keyFromMarkerCount 0 32768 = -2147483648 ∧
    keyFromMarkerCount 0 32768 ≠ 32768 * 65536 + 0 ∧
    cc (keyFromMarkerCount 0 32768) ≠ 32768 ∧
    markerCountFromKey (keyFromMarkerCount 0 32768) ≠ 0 + 32768 := by
  decide

/-- C8 (amended): for all non-negative intros below 2 ^ 16 and credits
below 2 ^ 15 (so that the 32-bit signed shift does not overflow), the
packed bucket key equals credits times 2 ^ 16 plus intros, the intro and
credits counts are recoverable from the key, and markerCountFromKey of the
packed key equals intros plus credits. -/
theorem c8_packed_key_roundtrip (intros credits : Int)
    (h1 : 0 ≤ intros) (h2 : intros < 65536) (h3 : 0 ≤ credits) (h4 : credits < 32768) :
    keyFromMarkerCount intros credits = credits * 65536 + intros ∧
    ic (keyFromMarkerCount intros credits) = intros ∧
    cc (keyFromMarkerCount intros credits) = credits ∧
    markerCountFromKey (keyFromMarkerCount intros credits) = intros + credits := by
  have hc32 : toInt32 credits = credits := toInt32_eq_self credits h3 (by omega)
  have hshift : toInt32 (toInt32 credits * 65536) = credits * 65536 := by
    rw [hc32]
    exact toInt32_eq_self _ (by omega) (by omega)
  have hkey : keyFromMarkerCount intros credits = credits * 65536 + intros := by
    rw [keyFromMarkerCount, deltaFromType_intro_eq, deltaFromType_credits_eq, hshift]
    omega
  have hself : toInt32 (keyFromMarkerCount intros credits) = credits * 65536 + intros := by
    rw [hkey]
    exact toInt32_eq_self _ (by omega) (by omega)
  refine ⟨hkey, ?_, ?_, ?_⟩
  · rw [ic, hself]
    omega
  · rw [cc, hself]
    omega
  · rw [markerCountFromKey, cc, ic, hself]
    omega

/-- Witness for C8 at intros = 3 and credits = 2. -/
theorem c8_packed_key_roundtrip_witness :
    keyFromMarkerCount 3 2 = 2 * 65536 + 3 ∧
    ic (keyFromMarkerCount 3 2) = 3 ∧
    cc (keyFromMarkerCount 3 2) = 2 ∧
    markerCountFromKey (keyFromMarkerCount 3 2) = 3 + 2 :=
  c8_packed_key_roundtrip 3 2 (by decide) (by decide) (by decide) (by decide)

/-- C9 counterexample: applying a delta of one commercial marker to the
empty bucket changes the intro count of the bucket from 0 to 1, so the
breakdown does not keep commercial markers out of the intro field. -/
theorem c9_commercial_counterexample :
    ic ((0 : Int) + deltaFromType 1 "commercial") = 1 ∧ ic (0 : Int) = 0 := by
  decide

/-- C9 (amended): commercial deltas are not kept separate from the
intro/credits breakdown: deltaFromType silently falls back to the intro
encoding for the type commercial, so a commercial delta changes the intro
count of the bucket by the delta while the credits count is unchanged. -/
theorem c9_commercial_counted_as_intro (key d : Int)
    (h1 : 0 ≤ key) (h2 : key < 2147483648)
    (h3 : 0 ≤ key + d) (h4 : key + d < 2147483648)
    (h5 : 0 ≤ key % 65536 + d) (h6 : key % 65536 + d < 65536) :
    deltaFromType d "commercial" = deltaFromType d "intro" ∧
    ic (key + deltaFromType d "commercial") = ic key + d ∧
    cc (key + deltaFromType d "commercial") = cc key := by
  rw [deltaFromType_commercial_eq, deltaFromType_intro_eq]
  refine ⟨rfl, ?_, ?_⟩
  · unfold ic toInt32
    omega
  · unfold cc toInt32
    omega

/-- Witness for C9 at a bucket with one credits marker and a commercial
delta of 1. -/
theorem c9_commercial_counted_as_intro_witness :
    deltaFromType 1 "commercial" = deltaFromType 1 "intro" ∧
    ic ((65536 : Int) + deltaFromType 1 "commercial") = ic 65536 + 1 ∧
    cc ((65536 : Int) + deltaFromType 1 "commercial") = cc 65536 :=
  c9_commercial_counted_as_intro 65536 1 (by decide) (by decide) (by decide) (by decide)
    (by decide) (by decide)

/-- C10: for every bucket map whose keys are unique and contain oldBucket,
MarkerBreakdown.delta moves exactly one item from oldBucket to
oldBucket + delta, so totalItems is unchanged. -/
theorem c10_delta_preserves_totalItems (counts : List (Int × Int)) (oldBucket delta : Int)
    (hnodup : (counts.map Prod.fst).Nodup) (hmem : oldBucket ∈ counts.map Prod.fst) :
    totalItems (bdDelta counts oldBucket delta) = totalItems counts := by
  unfold bdDelta
  have hkeys : (bdAdd (bdEnsure counts (oldBucket + delta)) oldBucket (-1)).map Prod.fst =
      (bdEnsure counts (oldBucket + delta)).map Prod.fst :=
    bdAdd_map_fst _ _ _
  rw [totalItems_bdAdd, totalItems_bdAdd, totalItems_bdEnsure, hkeys,
    count_bdEnsure_self counts (oldBucket + delta) hnodup,
    count_bdEnsure_other counts (oldBucket + delta) oldBucket hnodup hmem]
  omega

/-- Witness for C10 on the bucket map with five items in bucket 0. -/
theorem c10_delta_preserves_totalItems_witness :
    totalItems (bdDelta [((0 : Int), (5 : Int))] 0 1) = totalItems [((0 : Int), (5 : Int))] :=
  c10_delta_preserves_totalItems [(0, 5)] 0 1 (by decide) (by decide)

theorem addMarkerOp_badRequest_iff (markers : List Marker) (parentId newId startMs endMs : Int) :
    (addMarkerOp markers parentId newId startMs endMs = Except.error ServerErr.badRequest) ↔
      (startMs < 0 ∨ startMs ≥ endMs) := by
  unfold addMarkerOp checkMarkerBounds
  by_cases h1 : startMs ≥ endMs
  · rw [if_pos h1]
    exact iff_of_true rfl (Or.inr h1)
  · rw [if_neg h1]
    by_cases h2 : startMs < 0
    · rw [if_pos h2]
      exact iff_of_true rfl (Or.inl h2)
    · rw [if_neg h2]
      by_cases h3 : markers.any (fun s => decide (s.startMs < endMs ∧ startMs < s.endMs)) = true
      · rw [if_pos h3]
        constructor
        · intro hc
          simp at hc
        · intro hc
          exact absurd hc (by omega)
      · rw [if_neg h3]
        constructor
        · intro hc
          simp at hc
        · intro hc
          exact absurd hc (by omega)

/-- C3 counterexample: adding a marker with end one past the 600000
millisecond duration of the (empty) parent succeeds, with no BadRequest and
nothing rejected, because the add validation never consults the duration;
the claim demands BadRequest for end = duration + 1. -/
theorem c3_duration_not_checked_counterexample :
    (applyAddMarker { markers := [], cache := [], actionLog := [] } 100 42 0 600001).2 = none ∧
    (600001 : Int) > 600000 := by
  decide

/-- C3 (amended): an Add fails with BadRequest exactly when start is
negative or start is at or beyond end; the parent duration plays no part in
the validation, and when any error is raised no marker is inserted, the
cache is untouched and no action-log entry is written. -/
theorem c3_add_badRequest_iff (st : ServerState) (parentId newId startMs endMs : Int) :
    ((applyAddMarker st parentId newId startMs endMs).2 = some ServerErr.badRequest ↔
      (startMs < 0 ∨ startMs ≥ endMs)) ∧
    ∀ e, (applyAddMarker st parentId newId startMs endMs).2 = some e →
      (applyAddMarker st parentId newId startMs endMs).1 = st := by
  have hiff := addMarkerOp_badRequest_iff st.markers parentId newId startMs endMs
  cases h : addMarkerOp st.markers parentId newId startMs endMs with
  | error e =>
    rw [h] at hiff
    simp only [Except.error.injEq] at hiff
    refine ⟨?_, ?_⟩
    · simp only [applyAddMarker, h, Option.some.injEq]
      exact hiff
    · intro e2 _
      simp [applyAddMarker, h]
  | ok newMarkers =>
    rw [h] at hiff
    simp only [reduceCtorEq, false_iff] at hiff
    refine ⟨?_, ?_⟩
    · constructor
      · intro hc
        simp [applyAddMarker, h] at hc
      · intro hc
        exact absurd hc hiff
    · intro e2 he2
      simp [applyAddMarker, h] at he2

/-- Witness for C3 at a flipped interval (start 5, end 3): the request is
rejected and the state is unchanged. -/
theorem c3_add_badRequest_iff_witness :
    (applyAddMarker twoMarkerState 4 7 5 3).1 = twoMarkerState :=
  (c3_add_badRequest_iff twoMarkerState 4 7 5 3).2 ServerErr.badRequest (by decide)

/-- C7: an Edit requesting the final flag on a marker whose type is not
credits still commits the requested start, end and type, but the stored
final flag is cleared rather than the edit being rejected. -/
theorem c7_edit_final_cleared (m : Marker) (startMs endMs : Int) (markerType : String)
    (h : markerType ≠ "credits") :
    (editApply m startMs endMs markerType true).startMs = startMs ∧
    (editApply m startMs endMs markerType true).endMs = endMs ∧
    (editApply m startMs endMs markerType true).markerType = markerType ∧
    (editApply m startMs endMs markerType true).isFinal = false := by
  unfold editApply editResolveFinal
  simp [h]

/-- Witness for C7 on the input of BasicCRUD.testEditOfFinalIntroMarker:
editing the default intro marker to 14000-46000 with final requested. -/
theorem c7_edit_final_cleared_witness :
    (editApply epMarker1 14000 46000 "intro" true).startMs = 14000 ∧
    (editApply epMarker1 14000 46000 "intro" true).endMs = 46000 ∧
    (editApply epMarker1 14000 46000 "intro" true).markerType = "intro" ∧
    (editApply epMarker1 14000 46000 "intro" true).isFinal = false :=
  c7_edit_final_cleared epMarker1 14000 46000 "intro" (by decide)

/-- C5: a Shift without force over markers containing two distinct retained
markers on the same parent refuses with applied = false and conflict = true,
reports the retained markers, and leaves every marker untouched. -/
theorem c5_shift_conflict_no_mutation (markers : List Marker) (duration : Int → Int)
    (dStart dEnd : Int) (ignored : List Int) (m1 m2 : Marker)
    (h1 : m1 ∈ shiftRetained markers ignored) (h2 : m2 ∈ shiftRetained markers ignored)
    (hp : m2.parentId = m1.parentId) (hne : m2.id ≠ m1.id) :
    (shiftMarkers markers duration dStart dEnd false ignored).1.applied = false ∧
    (shiftMarkers markers duration dStart dEnd false ignored).1.conflict = true ∧
    (shiftMarkers markers duration dStart dEnd false ignored).1.allMarkers =
      shiftRetained markers ignored ∧
    (shiftMarkers markers duration dStart dEnd false ignored).2 = markers := by
  have hl : hasLinkedConflict (shiftRetained markers ignored) = true := by
    unfold hasLinkedConflict
    refine List.any_eq_true.mpr ⟨m1, h1, List.any_eq_true.mpr ⟨m2, h2, ?_⟩⟩
    simp [hp, hne]
  unfold shiftMarkers
  simp [hl]

/-- Witness for C5 on a parent owning two markers, shifted by 3000 ms with
force off and nothing ignored (the scenario of
ShiftTest.shiftSingleEpisodeWithMultipleMarkersTryApplyTest). -/
theorem c5_shift_conflict_no_mutation_witness :
    (shiftMarkers [epMarker1, epMarker2] constDuration 3000 3000 false []).1.applied = false ∧
    (shiftMarkers [epMarker1, epMarker2] constDuration 3000 3000 false []).1.conflict = true ∧
    (shiftMarkers [epMarker1, epMarker2] constDuration 3000 3000 false []).1.allMarkers =
      shiftRetained [epMarker1, epMarker2] [] ∧
    (shiftMarkers [epMarker1, epMarker2] constDuration 3000 3000 false []).2 =
      [epMarker1, epMarker2] :=
  c5_shift_conflict_no_mutation [epMarker1, epMarker2] constDuration 3000 3000 []
    epMarker1 epMarker2 (by decide) (by decide) (by decide) (by decide)

theorem shiftMarkers_commit (markers : List Marker) (duration : Int → Int)
    (dStart dEnd : Int) (force : Bool) (ignored : List Int)
    (happ : (shiftMarkers markers duration dStart dEnd force ignored).1.applied = true) :
    (shiftMarkers markers duration dStart dEnd force ignored).2 =
      markers.map fun m =>
        if decide (m.id ∉ ignored) && !(shiftIsError (duration m.parentId) dStart dEnd m) then
          shiftClamp (duration m.parentId) dStart dEnd m
        else m := by
  by_cases hc1 : (hasLinkedConflict (shiftRetained markers ignored) && !force) = true
  · exfalso
    unfold shiftMarkers at happ
    rw [if_pos hc1] at happ
    simp at happ
  · by_cases hc2 : (((shiftRetained markers ignored).any fun m =>
        shiftIsError (duration m.parentId) dStart dEnd m) && !force) = true
    · exfalso
      unfold shiftMarkers at happ
      rw [if_neg hc1, if_pos hc2] at happ
      simp at happ
    · unfold shiftMarkers
      rw [if_neg hc1, if_neg hc2]

/-- C4: every retained, non-Error marker of a committed shift whose
shifted interval leaves the episode bounds is stored clamped to
max(0, shifted start) and min(duration, shifted end), and the invariant
0 at most start, start below end, end at most duration still holds for the
stored marker. -/
theorem c4_shift_cutoff_clamped (markers : List Marker) (duration : Int → Int)
    (dStart dEnd : Int) (force : Bool) (ignored : List Int) (m : Marker)
    (hmem : m ∈ markers) (hret : m.id ∉ ignored)
    (happ : (shiftMarkers markers duration dStart dEnd force ignored).1.applied = true)
    (hD : 0 < duration m.parentId)
    (he1 : 0 < m.endMs + dEnd)
    (he2 : m.startMs + dStart < duration m.parentId)
    (he3 : m.startMs + dStart < m.endMs + dEnd)
    (hcut : m.startMs + dStart < 0 ∨ duration m.parentId < m.endMs + dEnd) :
    shiftClamp (duration m.parentId) dStart dEnd m ∈
      (shiftMarkers markers duration dStart dEnd force ignored).2 ∧
    (shiftClamp (duration m.parentId) dStart dEnd m).startMs = max 0 (m.startMs + dStart) ∧
    (shiftClamp (duration m.parentId) dStart dEnd m).endMs =
      min (duration m.parentId) (m.endMs + dEnd) ∧
    0 ≤ (shiftClamp (duration m.parentId) dStart dEnd m).startMs ∧
    (shiftClamp (duration m.parentId) dStart dEnd m).startMs <
      (shiftClamp (duration m.parentId) dStart dEnd m).endMs ∧
    (shiftClamp (duration m.parentId) dStart dEnd m).endMs ≤ duration m.parentId := by
  have herr : shiftIsError (duration m.parentId) dStart dEnd m = false := by
    unfold shiftIsError
    simp only [decide_eq_false_iff_not]
    push_neg
    refine ⟨by omega, by omega, by omega⟩
  refine ⟨?_, rfl, rfl, ?_, ?_, ?_⟩
  · rw [shiftMarkers_commit markers duration dStart dEnd force ignored happ]
    refine List.mem_map.mpr ⟨m, hmem, ?_⟩
    simp [hret, herr]
  · show 0 ≤ max 0 (m.startMs + dStart)
    omega
  · show max 0 (m.startMs + dStart) < min (duration m.parentId) (m.endMs + dEnd)
    omega
  · show min (duration m.parentId) (m.endMs + dEnd) ≤ duration m.parentId
    omega

/-- Witness for C4 on the concrete scenario of the spec: a single marker
15000-45000 on a 600000 ms episode shifted by -16000 commits the clamped
marker 0-29000. -/
theorem c4_shift_cutoff_clamped_witness :
    shiftClamp (constDuration epMarker1.parentId) (-16000) (-16000) epMarker1 ∈
      (shiftMarkers [epMarker1] constDuration (-16000) (-16000) false []).2 ∧
    (shiftClamp (constDuration epMarker1.parentId) (-16000) (-16000) epMarker1).startMs =
      max 0 (epMarker1.startMs + (-16000)) ∧
    (shiftClamp (constDuration epMarker1.parentId) (-16000) (-16000) epMarker1).endMs =
      min (constDuration epMarker1.parentId) (epMarker1.endMs + (-16000)) ∧
    0 ≤ (shiftClamp (constDuration epMarker1.parentId) (-16000) (-16000) epMarker1).startMs ∧
    (shiftClamp (constDuration epMarker1.parentId) (-16000) (-16000) epMarker1).startMs <
      (shiftClamp (constDuration epMarker1.parentId) (-16000) (-16000) epMarker1).endMs ∧
    (shiftClamp (constDuration epMarker1.parentId) (-16000) (-16000) epMarker1).endMs ≤
      constDuration epMarker1.parentId :=
  c4_shift_cutoff_clamped [epMarker1] constDuration (-16000) (-16000) false [] epMarker1
    (by decide) (by decide) (by decide) (by decide) (by decide) (by decide) (by decide)
    (by decide)


theorem find?_eq_some_of_nodup (l : List Marker) (m : Marker) (markerId : Int)
    (hids : (l.map Marker.id).Nodup) (hmem : m ∈ l) (hid : m.id = markerId) :
    l.find? (fun mk => mk.id == markerId) = some m := by
  induction l with
  | nil => cases hmem
  | cons h t ih =>
    simp only [List.map_cons, List.nodup_cons] at hids
    rcases hids with ⟨hnotin, hnodupt⟩
    by_cases hh : h.id = markerId
    · have hm : m = h := by
        rcases List.mem_cons.mp hmem with rfl | hmt
        · rfl
        · exfalso
          apply hnotin
          rw [hh, ← hid]
          exact List.mem_map.mpr ⟨m, hmt, rfl⟩
      rw [List.find?_cons_of_pos _ (by simp [hh]), hm]
    · rw [List.find?_cons_of_neg _ (by simp [hh])]
      apply ih hnodupt
      rcases List.mem_cons.mp hmem with rfl | hmt
      · exact absurd hid hh
      · exact hmt

theorem insertSorted_perm (m : Marker) (l : List Marker) :
    List.Perm (insertSorted m l) (m :: l) := by
  induction l with
  | nil => exact List.Perm.refl _
  | cons x xs ih =>
    unfold insertSorted
    by_cases h : m.startMs ≤ x.startMs
    · rw [if_pos h]
    · rw [if_neg h]
      exact List.Perm.trans (List.Perm.cons x ih) (List.Perm.swap m x xs)

theorem sortByStart_perm (l : List Marker) : List.Perm (sortByStart l) l := by
  induction l with
  | nil => exact List.Perm.refl _
  | cons x xs ih =>
    show List.Perm (insertSorted x (sortByStart xs)) (x :: xs)
    exact List.Perm.trans (insertSorted_perm x _) (List.Perm.cons x ih)

theorem editMarkerOp_overlap_iff (markers : List Marker) (markerId startMs endMs : Int)
    (m : Marker)
    (hb1 : 0 ≤ startMs) (hb2 : startMs < endMs)
    (hids : (markers.map Marker.id).Nodup)
    (hmem : m ∈ markers) (hid : m.id = markerId)
    (hidx : ∀ i : Fin markers.length, (markers.get i).index = (i : Int)) :
    (editMarkerOp markers markerId startMs endMs = Except.error ServerErr.overlap) ↔
      markers.any (fun s2 =>
        decide (s2.endMs ≥ startMs ∧ s2.startMs ≤ endMs ∧ s2.id ≠ markerId)) = true := by
  have hbc : checkMarkerBounds startMs endMs = none := by
    unfold checkMarkerBounds
    rw [if_neg (by omega), if_neg (by omega)]
  have hfind : markers.find? (fun mk => mk.id == markerId) = some m :=
    find?_eq_some_of_nodup markers m markerId hids hmem hid
  obtain ⟨i, hi⟩ := List.mem_iff_get.mp hmem
  have hmidx : m.index = (i : Int) := by
    rw [← hi]
    exact hidx i
  have htoNat : m.index.toNat = (i : Nat) := by
    rw [hmidx]
    exact Int.toNat_natCast i
  have hget? : markers.get? m.index.toNat = some m := by
    rw [htoNat, List.get?_eq_get i.isLt]
    exact congrArg some hi
  have hrepl : replaceAt markers m.index.toNat startMs endMs =
      markers.set m.index.toNat { m with startMs := startMs, endMs := endMs } := by
    unfold replaceAt
    rw [hget?]
  have hred : editMarkerOp markers markerId startMs endMs =
      (if hasOverlap (sortByStart (replaceAt markers m.index.toNat startMs endMs))
          markerId startMs endMs then Except.error ServerErr.overlap
        else Except.ok (reindex (sortByStart (replaceAt markers m.index.toNat startMs endMs)))) := by
    unfold editMarkerOp
    rw [hbc, hfind]
  have hover : (hasOverlap
      (sortByStart (markers.set m.index.toNat { m with startMs := startMs, endMs := endMs }))
      markerId startMs endMs = true) ↔
      markers.any (fun s2 =>
        decide (s2.endMs ≥ startMs ∧ s2.startMs ≤ endMs ∧ s2.id ≠ markerId)) = true := by
    unfold hasOverlap
    rw [List.any_eq_true, List.any_eq_true]
    constructor
    · rintro ⟨x, hx, hpx⟩
      have hx2 : x ∈ markers.set m.index.toNat { m with startMs := startMs, endMs := endMs } :=
        (sortByStart_perm _).mem_iff.mp hx
      rcases List.mem_or_eq_of_mem_set hx2 with hx3 | rfl
      · exact ⟨x, hx3, hpx⟩
      · simp only [decide_eq_true_eq] at hpx
        exact absurd hid hpx.2.2
    · rintro ⟨x, hx, hpx⟩
      refine ⟨x, ?_, hpx⟩
      apply (sortByStart_perm _).mem_iff.mpr
      simp only [decide_eq_true_eq] at hpx
      obtain ⟨j, hj⟩ := List.mem_iff_get.mp hx
      have hij : m.index.toNat ≠ (j : Nat) := by
        intro heq
        have hjm : markers.get j = m := by
          rw [htoNat] at heq
          have hji : j = i := Fin.ext heq.symm
          rw [hji, hi]
        rw [hjm] at hj
        rw [← hj] at hpx
        exact hpx.2.2 hid
      have hlen : (j : Nat) < (markers.set m.index.toNat
          { m with startMs := startMs, endMs := endMs }).length := by
        simpa using j.isLt
      have hsetget : (markers.set m.index.toNat
          { m with startMs := startMs, endMs := endMs })[(j : Nat)] = x := by
        rw [List.getElem_set_ne hij]
        simpa using hj
      rw [← hsetget]
      exact List.getElem_mem hlen
  rw [hred, hrepl]
  by_cases hov : hasOverlap
      (sortByStart (markers.set m.index.toNat { m with startMs := startMs, endMs := endMs }))
      markerId startMs endMs = true
  · rw [if_pos hov]
    exact iff_of_true rfl (hover.mp hov)
  · rw [if_neg hov]
    constructor
    · intro hc
      simp at hc
    · intro hc
      exact absurd (hover.mpr hc) hov



/-- C1 (amended): given valid bounds and an existing marker on a parent
satisfying the index invariant, an Edit fails with Overlap if and only if
some distinct sibling satisfies the closed-interval test of the source
(sibling end at or after the new start and sibling start at or before the
new end) -- so proper intersections and merely touching intervals are both
rejected -- and when Overlap is raised the markers, the cache and the
action log are unchanged. -/
theorem c1_edit_overlap_iff (st : ServerState) (markerId startMs endMs : Int) (m : Marker)
    (hb1 : 0 ≤ startMs) (hb2 : startMs < endMs)
    (hids : (st.markers.map Marker.id).Nodup)
    (hmem : m ∈ st.markers) (hid : m.id = markerId)
    (hidx : ∀ i : Fin st.markers.length, (st.markers.get i).index = (i : Int)) :
    ((applyEditMarker st markerId startMs endMs).2 = some ServerErr.overlap ↔
      st.markers.any (fun s2 =>
        decide (s2.endMs ≥ startMs ∧ s2.startMs ≤ endMs ∧ s2.id ≠ markerId)) = true) ∧
    ((applyEditMarker st markerId startMs endMs).2 = some ServerErr.overlap →
      (applyEditMarker st markerId startMs endMs).1 = st) := by
  have hiff := editMarkerOp_overlap_iff st.markers markerId startMs endMs m hb1 hb2 hids
    hmem hid hidx
  cases h : editMarkerOp st.markers markerId startMs endMs with
  | error e =>
    rw [h] at hiff
    simp only [Except.error.injEq] at hiff
    refine ⟨?_, ?_⟩
    · simp only [applyEditMarker, h, Option.some.injEq]
      exact hiff
    · intro _
      simp [applyEditMarker, h]
  | ok newMarkers =>
    rw [h] at hiff
    simp only [reduceCtorEq, false_iff] at hiff
    refine ⟨?_, ?_⟩
    · constructor
      · intro hc
        simp [applyEditMarker, h] at hc
      · intro hc
        exact absurd hc hiff
    · intro hc
      simp [applyEditMarker, h] at hc

/-- C1 counterexample: editing marker 1 to the interval 30000-60000 on a
parent whose only other marker occupies 60000-90000 merely touches that
sibling (the half-open intervals do not intersect), yet the code rejects
the edit with Overlap; the claim demands that touching intervals be
accepted. -/
theorem c1_touching_rejected_counterexample :
    (applyEditMarker twoMarkerState 1 30000 60000).2 = some ServerErr.overlap ∧
    (applyEditMarker twoMarkerState 1 30000 60000).1 = twoMarkerState ∧
    epMarker2.id ≠ 1 ∧
    ¬ (epMarker2.startMs < 60000 ∧ 30000 < epMarker2.endMs) ∧
    epMarker2.startMs = 60000 := by
  decide

/-- Witness for C1 at an edit of marker 1 to 30000-59999 on the two-marker
parent. -/
theorem c1_edit_overlap_iff_witness :
    ((applyEditMarker twoMarkerState 1 30000 59999).2 = some ServerErr.overlap ↔
      twoMarkerState.markers.any (fun s2 =>
        decide (s2.endMs ≥ 30000 ∧ s2.startMs ≤ 59999 ∧ s2.id ≠ 1)) = true) :=
  (c1_edit_overlap_iff twoMarkerState 1 30000 59999 epMarker1 (by decide) (by decide)
    (by decide) (by decide) (by decide) (by decide)).1



theorem foldl_deleteIndex_no_match (markerId : Int) (l : List Marker) (acc : Int)
    (h : ∀ x ∈ l, x.id ≠ markerId) :
    l.foldl (fun acc2 mk => if mk.id == markerId then mk.index else acc2) acc = acc := by
  induction l generalizing acc with
  | nil => rfl
  | cons x xs ih =>
    have hx : (x.id == markerId) = false := by
      simpa using h x (List.mem_cons_self x xs)
    simp only [List.foldl_cons, hx, Bool.false_eq_true, if_false]
    exact ih acc (fun y hy => h y (List.mem_cons_of_mem x hy))

theorem deleteFindIndex_append (l1 l2 : List Marker) (m : Marker) (markerId : Int)
    (hid : m.id = markerId)
    (h1 : ∀ x ∈ l1, x.id ≠ markerId) (h2 : ∀ x ∈ l2, x.id ≠ markerId) :
    deleteFindIndex (l1 ++ m :: l2) markerId = m.index := by
  unfold deleteFindIndex
  rw [List.foldl_append]
  rw [foldl_deleteIndex_no_match markerId l1 0 h1]
  simp only [List.foldl_cons, hid, beq_self_eq_true, if_true]
  exact foldl_deleteIndex_no_match markerId l2 m.index h2



theorem filter_delete_append (l1 l2 : List Marker) (m : Marker) (markerId : Int)
    (hid : m.id = markerId)
    (h1 : ∀ x ∈ l1, x.id ≠ markerId) (h2 : ∀ x ∈ l2, x.id ≠ markerId) :
    (l1 ++ m :: l2).filter (fun mk => decide (mk.id ≠ markerId)) = l1 ++ l2 := by
  rw [List.filter_append]
  have hf1 : l1.filter (fun mk => decide (mk.id ≠ markerId)) = l1 :=
    List.filter_eq_self.mpr (fun a ha => by simpa using h1 a ha)
  have hf2 : l2.filter (fun mk => decide (mk.id ≠ markerId)) = l2 :=
    List.filter_eq_self.mpr (fun a ha => by simpa using h2 a ha)
  rw [hf1]
  rw [List.filter_cons_of_neg (by simpa using hid)]
  rw [hf2]

theorem nodup_ids_split (l1 l2 : List Marker) (m : Marker) (markerId : Int)
    (hid : m.id = markerId)
    (hnodup : ((l1 ++ m :: l2).map Marker.id).Nodup) :
    (∀ x ∈ l1, x.id ≠ markerId) ∧ (∀ x ∈ l2, x.id ≠ markerId) := by
  rw [List.map_append, List.map_cons, List.nodup_append] at hnodup
  rcases hnodup with ⟨_, hcons, hdisj⟩
  rw [List.nodup_cons] at hcons
  constructor
  · intro x hx hxid
    exact hdisj (List.mem_map.mpr ⟨x, hx, rfl⟩) (by rw [hxid, ← hid]; exact List.mem_cons_self _ _)
  · intro x hx hxid
    exact hcons.1 (by rw [← hid] at hxid; exact hxid ▸ List.mem_map.mpr ⟨x, hx, rfl⟩)



theorem index_facts (l1 l2 : List Marker) (m : Marker)
    (hidx : ∀ i : Fin (l1 ++ m :: l2).length, ((l1 ++ m :: l2).get i).index = (i : Int)) :
    m.index = (l1.length : Int) ∧
    (∀ i : Fin l1.length, (l1.get i).index = (i : Int)) ∧
    (∀ i : Fin l2.length, (l2.get i).index = (l1.length : Int) + 1 + (i : Int)) := by
  have hlen : (l1 ++ m :: l2).length = l1.length + (l2.length + 1) := by
    simp [List.length_append]
  refine ⟨?_, ?_, ?_⟩
  · have hpos : l1.length < (l1 ++ m :: l2).length := by omega
    have h := hidx ⟨l1.length, hpos⟩
    rw [List.get_eq_getElem] at h
    rw [List.getElem_append_right (le_refl l1.length)] at h
    simpa using h
  · intro i
    have hpos : (i : Nat) < (l1 ++ m :: l2).length := by omega
    have h := hidx ⟨i, hpos⟩
    rw [List.get_eq_getElem, List.getElem_append_left i.isLt] at h
    simpa using h
  · intro i
    have hpos : l1.length + 1 + (i : Nat) < (l1 ++ m :: l2).length := by
      have := i.isLt
      omega
    have h := hidx ⟨l1.length + 1 + (i : Nat), hpos⟩
    rw [List.get_eq_getElem] at h
    simp only [Fin.val_mk] at h
    rw [List.getElem_append_right (by omega)] at h
    have harith : l1.length + 1 + (i : Nat) - l1.length = (i : Nat) + 1 := by omega
    simp only [harith, List.getElem_cons_succ] at h
    rw [List.get_eq_getElem, h]
    push_cast
    ring



/-- C6: deleting an existing marker m from a parent whose markers have
unique ids, contiguous indices 0..n-1 and are ordered by start returns the
pre-delete state of m, decrements by exactly 1 the index of every sibling
whose index was greater than the index of m while leaving smaller indices
unchanged, and the surviving siblings keep contiguous indices 0..n-2
ordered by start. -/
theorem c6_delete_reindexes (l1 l2 : List Marker) (m : Marker) (markerId : Int)
    (hid : m.id = markerId)
    (hnodup : ((l1 ++ m :: l2).map Marker.id).Nodup)
    (hidx : ∀ i : Fin (l1 ++ m :: l2).length, ((l1 ++ m :: l2).get i).index = (i : Int))
    (hsort : (l1 ++ m :: l2).Pairwise (fun a b => a.startMs ≤ b.startMs)) :
    deleteMarkerOp (l1 ++ m :: l2) markerId =
      some (m, (l1 ++ l2).map (fun mk =>
        if m.index < mk.index then { mk with index := mk.index - 1 } else mk)) ∧
    (∀ i : Fin ((l1 ++ l2).map (fun mk =>
        if m.index < mk.index then { mk with index := mk.index - 1 } else mk)).length,
      (((l1 ++ l2).map (fun mk =>
        if m.index < mk.index then { mk with index := mk.index - 1 } else mk)).get i).index =
        (i : Int)) ∧
    ((l1 ++ l2).map (fun mk =>
      if m.index < mk.index then { mk with index := mk.index - 1 } else mk)).Pairwise
      (fun a b => a.startMs ≤ b.startMs) := by
  obtain ⟨h1, h2⟩ := nodup_ids_split l1 l2 m markerId hid hnodup
  obtain ⟨hm, hi1, hi2⟩ := index_facts l1 l2 m hidx
  have hmem : m ∈ l1 ++ m :: l2 := List.mem_append_right _ (List.mem_cons_self m l2)
  have hfind : (l1 ++ m :: l2).find? (fun mk => mk.id == markerId) = some m :=
    find?_eq_some_of_nodup _ m markerId hnodup hmem hid
  have hdel : deleteFindIndex (l1 ++ m :: l2) markerId = m.index :=
    deleteFindIndex_append l1 l2 m markerId hid h1 h2
  have hfil : (l1 ++ m :: l2).filter (fun mk => decide (mk.id ≠ markerId)) = l1 ++ l2 :=
    filter_delete_append l1 l2 m markerId hid h1 h2
  have hmem1 : ∀ x ∈ l1, ¬ (m.index < x.index) := by
    intro x hx
    obtain ⟨i, hi⟩ := List.mem_iff_get.mp hx
    rw [← hi, hi1 i, hm]
    have := i.isLt
    omega
  have hcode : deleteMarkerOp (l1 ++ m :: l2) markerId = some (m,
      if deleteFindIndex (l1 ++ m :: l2) markerId < ((l1 ++ m :: l2).length : Int) - 1 then
        ((l1 ++ m :: l2).filter fun mk => decide (mk.id ≠ markerId)).map (fun mk =>
          if deleteFindIndex (l1 ++ m :: l2) markerId < mk.index then
            { mk with index := mk.index - 1 } else mk)
      else (l1 ++ m :: l2).filter fun mk => decide (mk.id ≠ markerId)) := by
    unfold deleteMarkerOp
    rw [hfind]
  rw [hdel, hfil] at hcode
  have hlen : ((l1 ++ m :: l2).length : Int) = (l1.length : Int) + (l2.length : Int) + 1 := by
    push_cast [List.length_append, List.length_cons]
    ring
  have htarget : deleteMarkerOp (l1 ++ m :: l2) markerId = some (m, (l1 ++ l2).map (fun mk =>
      if m.index < mk.index then { mk with index := mk.index - 1 } else mk)) := by
    rw [hcode]
    by_cases hg : m.index < ((l1 ++ m :: l2).length : Int) - 1
    · rw [if_pos hg]
    · rw [if_neg hg]
      have hl2 : l2 = [] := by
        cases hcl : l2 with
        | nil => rfl
        | cons y ys =>
          exfalso
          apply hg
          rw [hm, hlen, hcl]
          push_cast [List.length_cons]
          omega
      subst hl2
      simp only [List.append_nil]
      have hmapid : l1.map (fun mk =>
          if m.index < mk.index then { mk with index := mk.index - 1 } else mk) = l1 := by
        rw [List.map_congr_left (fun x hx => if_neg (hmem1 x hx))]
        exact List.map_id l1
      rw [hmapid]
  refine ⟨htarget, ?_, ?_⟩
  · intro i
    have hleni : (i : Nat) < (l1 ++ l2).length := by
      have := i.isLt
      simpa using this
    rw [List.get_eq_getElem]
    simp only [List.getElem_map]
    by_cases hcase : (i : Nat) < l1.length
    · rw [List.getElem_append_left hcase]
      have hx : l1[(i : Nat)].index = ((i : Nat) : Int) := by
        have h := hi1 ⟨(i : Nat), hcase⟩
        rw [List.get_eq_getElem] at h
        simpa using h
      have hcond : ¬ (m.index < l1[(i : Nat)].index) := by
        omega
      rw [if_neg hcond]
      exact hx
    · have hge : l1.length ≤ (i : Nat) := le_of_not_lt hcase
      rw [List.getElem_append_right hge]
      have hlt2 : (i : Nat) - l1.length < l2.length := by
        rw [List.length_append] at hleni
        omega
      have hx : l2[(i : Nat) - l1.length].index =
          (l1.length : Int) + 1 + (((i : Nat) - l1.length : Nat) : Int) := by
        have h := hi2 ⟨(i : Nat) - l1.length, hlt2⟩
        rw [List.get_eq_getElem] at h
        simpa using h
      have hcond : m.index < l2[(i : Nat) - l1.length].index := by
        omega
      rw [if_pos hcond]
      show l2[(i : Nat) - l1.length].index - 1 = ((i : Nat) : Int)
      rw [hx]
      push_cast
      omega
  · have hsubl : List.Sublist (l1 ++ l2) (l1 ++ m :: l2) :=
      List.Sublist.append_left (List.sublist_cons_self m l2) l1
    have hsub : (l1 ++ l2).Pairwise (fun a b => a.startMs ≤ b.startMs) :=
      List.Pairwise.sublist hsubl hsort
    rw [List.pairwise_map]
    apply hsub.imp
    intro a b hab
    have ha : ∀ x : Marker,
        (if m.index < x.index then { x with index := x.index - 1 } else x).startMs =
          x.startMs := by
      intro x
      by_cases hx : m.index < x.index
      · rw [if_pos hx]
      · rw [if_neg hx]
    simp only [ha]
    exact hab


/-- Witness for C6: deleting the middle marker of a three-marker parent. -/
theorem c6_delete_reindexes_witness :
    deleteMarkerOp ([delMarkerA] ++ delMarkerB :: [delMarkerC]) 12 =
      some (delMarkerB, ([delMarkerA] ++ [delMarkerC]).map (fun mk =>
        if delMarkerB.index < mk.index then { mk with index := mk.index - 1 } else mk)) :=
  (c6_delete_reindexes [delMarkerA] [delMarkerC] delMarkerB 12 (by decide) (by decide)
    (by decide) (by decide)).1

end MarkerEditor
